import Mathlib

/-!
Shallow embedding of the pod package: the parse → default → validate
pipeline of a declarative container-workload ("Pod") specification.

The Go structs become Lean structures; Go `int` becomes `Int`; the
process-wide random byte source consumed by `crypto/rand.Read` becomes an
explicit oracle `r : Nat → Nat` (each draw is reduced `% 256`, the range of
a Go byte); the pointer-receiver `Validate` becomes a state-passing
function returning the post-state of the receiver together with the
optional error; `fmt.Errorf` messages become an error datatype carrying
exactly the arguments the source passes, plus a rendering function
`errMsg` that reproduces Go's formatting (including Go's
missing-argument output — `%!d(MISSING)`, `%!s(MISSING)` — for verbs
the source supplies no argument for).
-/

/-- `UserContainerPort` from the source: host/container/service ports and a
protocol tag. -/
structure UserContainerPort where
  HostPort : Int
  ContainerPort : Int
  ServicePort : Int
  Protocol : String
deriving DecidableEq, Repr

/-- `UserEnvironmentVar` from the source: an environment binding. -/
structure UserEnvironmentVar where
  Env : String
  Value : String
deriving DecidableEq, Repr

/-- `UserVolumeReference` from the source: a container-local volume mount,
referencing a top-level volume by name (`Volume`). -/
structure UserVolumeReference where
  Path : String
  Volume : String
  ReadOnly : Bool
deriving DecidableEq, Repr

/-- `UserFileReference` from the source: a container-local file mount,
referencing a top-level file by name (`Filename`), with a permission
string `Perm`. -/
structure UserFileReference where
  Path : String
  Filename : String
  Perm : String
  User : String
  Group : String
deriving DecidableEq, Repr

/-- `UserContainer` from the source. -/
structure UserContainer where
  Name : String
  Image : String
  Command : List String
  Workdir : String
  Entrypoint : List String
  Ports : List UserContainerPort
  Envs : List UserEnvironmentVar
  Volumes : List UserVolumeReference
  Files : List UserFileReference
  RestartPolicy : String
deriving DecidableEq, Repr

/-- `UserResource` from the source. -/
structure UserResource where
  Vcpu : Int
  Memory : Int
deriving DecidableEq, Repr

/-- `UserFile` from the source: a top-level file-catalog entry. -/
structure UserFile where
  Name : String
  Encoding : String
  Uri : String
  Contents : String
deriving DecidableEq, Repr

/-- `UserVolume` from the source: a top-level volume-catalog entry. -/
structure UserVolume where
  Name : String
  Source : String
  Driver : String
deriving DecidableEq, Repr

/-- `UserPod` from the source (the JSON field of `Name` is `id`; the Go
field `Type` is spelled `Type'` here because `Type` is a Lean keyword). -/
structure UserPod where
  Name : String
  Containers : List UserContainer
  Resource : UserResource
  Files : List UserFile
  Volumes : List UserVolume
  Tty : Bool
  Type' : String
deriving DecidableEq, Repr

/-!
## The uniqueness checker `keySet`

In the source, `keySet` takes an `interface{}`: `InterfaceSlice` uses
reflection to turn it into `[]interface{}` (failing on non-slices), and a
type switch tests each element for the `item` interface (`key() string`).
We model the dynamic value with `GoVal`/`GoElem`: an element either
implements `item` with some key, or does not.
-/

/-- One element of a Go slice, as seen by `keySet`'s type switch: either a
value implementing the `item` interface (carrying its `key()` string) or
any other value. -/
inductive GoElem where
  | keyed : String → GoElem
  | nonItem : GoElem
deriving DecidableEq, Repr

/-- A Go `interface{}` value as seen by `InterfaceSlice`: a slice, or
anything else (on which reflection reports a non-slice kind and `keySet`
returns `(false, nil)`). -/
inductive GoVal where
  | slice : List GoElem → GoVal
  | nonSlice : GoVal
deriving DecidableEq, Repr

/-- The loop of `keySet`: `acc` is the `iset` map built so far (a map from
string to bool in Go; insertion-ordered duplicate-free list of keys here).
A repeated key stops the loop with `(false, iset)`; a non-`item` element
stops it with `(false, iset)`; exhaustion yields `(true, iset)`. -/
def keySetAux : List GoElem → List String → Bool × List String
  | [], acc => (true, acc)
  | GoElem.keyed k :: rest, acc =>
      if k ∈ acc then (false, acc) else keySetAux rest (acc ++ [k])
  | GoElem.nonItem :: _, acc => (false, acc)

/-- `keySet` from the source: `(false, nil)` when `InterfaceSlice` fails
(non-slice input), otherwise the loop over the elements starting from an
empty set. -/
def keySet : GoVal → Bool × List String
  | GoVal.slice l => keySetAux l []
  | GoVal.nonSlice => (false, [])

/-- The `item` instance of `UserVolume`: `key()` returns `Name`. -/
def volumesGoVal (l : List UserVolume) : GoVal :=
  GoVal.slice (l.map (fun v => GoElem.keyed v.Name))

/-- The `item` instance of `UserFile`: `key()` returns `Name`. -/
def filesGoVal (l : List UserFile) : GoVal :=
  GoVal.slice (l.map (fun f => GoElem.keyed f.Name))

/-- The `item` instance of `UserVolumeReference`: `key()` returns `Volume`. -/
def volumeRefsGoVal (l : List UserVolumeReference) : GoVal :=
  GoVal.slice (l.map (fun v => GoElem.keyed v.Volume))

/-- The `item` instance of `UserEnvironmentVar`: `key()` returns `Env`. -/
def envsGoVal (l : List UserEnvironmentVar) : GoVal :=
  GoVal.slice (l.map (fun e => GoElem.keyed e.Env))

/-!
## The random identifier generator `RandStr`
-/

/-- The dictionary selected by `RandStr`'s class tag: three fixed alphabets,
the empty string for any other tag (the source then indexes into an empty
string modulo zero, a runtime panic; no claim exercises that path and all
call sites in the source pass `"alphanum"`). -/
def randDictionary (randType : String) : String :=
  if randType = "alphanum" then "0123456789abcdefghijklmnopqrstuvwxyz"
  else if randType = "alpha" then "ABCDEFGHIJKLMNOPQRSTUVWXYZabcdefghijklmnopqrstuvwxyz"
  else if randType = "number" then "0123456789"
  else ""

/-- `RandStr` from the source: fill a buffer of `strSize` bytes from the
random source `r` (each draw reduced `% 256`, a Go byte), then map each
byte `v` to `dictionary[v % len(dictionary)]`. The out-of-range default
of `getD` is unreachable whenever the dictionary is non-empty. -/
def RandStr (r : Nat → Nat) (strSize : Nat) (randType : String) : String :=
  let dictionary := randDictionary randType
  let bytes := (List.range strSize).map (fun i => r i % 256)
  String.mk (bytes.map (fun v => dictionary.data.getD (v % dictionary.data.length) ' '))

/-!
## The decode + default pipeline `ProcessPodBytes`

JSON decoding itself (`json.Unmarshal`) is not modelled: a "well-formed
input document" is represented by the decoded `UserPod` value. The random
source consumed when the pod name is empty is the explicit oracle `r`.
-/

/-- The errors `ProcessPodBytes` can return after a successful decode. -/
inductive PodErr where
  | missingImage
  | noContainers
  | emptyVolumeName
deriving DecidableEq, Repr

/-- The `for _, v = range userPod.Containers` loop: stop at the first
container with an empty image. -/
def hasEmptyImage : List UserContainer → Bool
  | [] => false
  | c :: rest => c.Image = "" || hasEmptyImage rest

/-- The `for _, vol = range userPod.Volumes` loop: stop at the first
top-level volume with an empty name. -/
def hasEmptyVolumeName : List UserVolume → Bool
  | [] => false
  | v :: rest => v.Name = "" || hasEmptyVolumeName rest

/-- `ProcessPodBytes` from the source, after decoding: default the name
(fresh 10-character alphanumeric identifier when empty), default
`Vcpu` to 1 and `Memory` to 128 when zero, then fail on any container
with an empty image, on an empty container list (the image loop also
counts the containers; `num == 0` is emptiness), and on any top-level
volume with an empty name — in that order. On success the defaulted
record is returned whole. -/
def ProcessPodBytes (r : Nat → Nat) (userPod : UserPod) : Except PodErr UserPod :=
  let name := if userPod.Name = "" then RandStr r 10 "alphanum" else userPod.Name
  let vcpu := if userPod.Resource.Vcpu = 0 then 1 else userPod.Resource.Vcpu
  let memory := if userPod.Resource.Memory = 0 then 128 else userPod.Resource.Memory
  if hasEmptyImage userPod.Containers then Except.error PodErr.missingImage
  else if userPod.Containers.length = 0 then Except.error PodErr.noContainers
  else if hasEmptyVolumeName userPod.Volumes then Except.error PodErr.emptyVolumeName
  else Except.ok { userPod with Name := name, Resource := ⟨vcpu, memory⟩ }

/-!
## The validator
-/

/-- The errors `Validate` can return. Each constructor carries exactly the
arguments the source passes to `errors.New`/`fmt.Errorf`; in particular
`badPerm` carries nothing, because the source's format string has a `%d`
verb for the container index and a `%s` verb for the permission value but
the call passes no arguments at all. -/
inductive VErr where
  | dupVolumes
  | dupFiles
  | dupVolMount (idx : Nat)
  | dupEnv (idx : Nat)
  | danglingFile (idx : Nat) (name : String)
  | badPerm
  | danglingVolume (idx : Nat) (name : String)
deriving DecidableEq, Repr

/-- The error messages, rendered as Go's `fmt` does. The `badPerm` message
reproduces Go's output for `%d` and `%s` verbs with no arguments
supplied. -/
def errMsg : VErr → String
  | VErr.dupVolumes => "Volumes name does not unique"
  | VErr.dupFiles => "Files name does not unique"
  | VErr.dupVolMount idx => "in container " ++ toString idx ++ ", volume source are not unique"
  | VErr.dupEnv idx => "in container " ++ toString idx ++ ", environment name are not unique"
  | VErr.danglingFile idx name =>
      "in container " ++ toString idx ++ ", file " ++ name ++ " does not exist in file list."
  | VErr.badPerm =>
      "in container %!d(MISSING), the permission %!s(MISSING) only accept Octal digital in string"
  | VErr.danglingVolume idx name =>
      "in container " ++ toString idx ++ ", volume " ++ name ++ " does not exist in volume list."

/-- A character in the regexp class `[0-7]`. -/
def isOctalDigit (c : Char) : Bool := '0' ≤ c && c ≤ '7'

/-- Whether the pattern `0[0-7]{3}` matches at the head of the character
list: a literal `'0'` followed by three octal digits. -/
def permPatternAt : List Char → Bool
  | '0' :: a :: b :: c :: _ => isOctalDigit a && isOctalDigit b && isOctalDigit c
  | _ => false

/-- `regexp.MustCompile("0[0-7]{3}").Match`: Go's `Match` is unanchored, so
it reports whether the pattern matches at ANY position of the string. -/
def containsPermPattern : List Char → Bool
  | [] => false
  | c :: rest => permPatternAt (c :: rest) || containsPermPattern rest

/-- The `for _, f := range container.Files` loop of `Validate`: a file
mount whose `Filename` is not in `fset` is a dangling reference; then the
loop-local copy `f` has its empty `Perm` defaulted to `"0755"`, and unless
that local `Perm` is the literal `"0"` it must match the (unanchored)
octal-permission pattern. -/
def checkContainerFiles (fset : List String) (idx : Nat) : List UserFileReference → Option VErr
  | [] => none
  | f :: rest =>
      if f.Filename ∈ fset then
        let f := if f.Perm = "" then { f with Perm := "0755" } else f
        if f.Perm ≠ "0" ∧ containsPermPattern f.Perm.data = false then some VErr.badPerm
        else checkContainerFiles fset idx rest
      else some (VErr.danglingFile idx f.Filename)

/-- The `for _, v := range container.Volumes` loop of `Validate`: a volume
mount whose `Volume` is not in `vset` is a dangling reference. -/
def checkContainerVolumes (vset : List String) (idx : Nat) : List UserVolumeReference → Option VErr
  | [] => none
  | v :: rest =>
      if v.Volume ∈ vset then checkContainerVolumes vset idx rest
      else some (VErr.danglingVolume idx v.Volume)

/-- The `for idx, container := range pod.Containers` loop of `Validate`:
per container, in order — volume-mount keys unique, environment names
unique, the file-mount loop, the volume-mount loop. -/
def checkContainers (vset fset : List String) (idx : Nat) : List UserContainer → Option VErr
  | [] => none
  | c :: rest =>
      if (keySet (volumeRefsGoVal c.Volumes)).1 = false then some (VErr.dupVolMount idx)
      else if (keySet (envsGoVal c.Envs)).1 = false then some (VErr.dupEnv idx)
      else
        match checkContainerFiles fset idx c.Files with
        | some e => some e
        | none =>
            match checkContainerVolumes vset idx c.Volumes with
            | some e => some e
            | none => checkContainers vset fset (idx + 1) rest

/-- `Validate` from the source. The receiver is a pointer, so the model
threads the pod state through and returns the post-state together with the
optional error: every Go write in the body targets a loop-local copy, so
the threaded state is returned as received. The duplicate-catalog errors
are only returned when the reported key set is non-empty, exactly as the
nested `if` in the source reads; otherwise execution falls through with
the partial set. -/
def Validate (pod : UserPod) : UserPod × Option VErr :=
  if (keySet (volumesGoVal pod.Volumes)).1 = false ∧
      0 < (keySet (volumesGoVal pod.Volumes)).2.length then
    (pod, some VErr.dupVolumes)
  else if (keySet (filesGoVal pod.Files)).1 = false ∧
      0 < (keySet (filesGoVal pod.Files)).2.length then
    (pod, some VErr.dupFiles)
  else
    (pod, checkContainers (keySet (volumesGoVal pod.Volumes)).2
      (keySet (filesGoVal pod.Files)).2 0 pod.Containers)

/-!
## Spec-side predicates and helper lemmas
-/

/-- The names of the top-level file catalog. -/
def fileNames (pod : UserPod) : List String := pod.Files.map (fun f => f.Name)

/-- The names of the top-level volume catalog. -/
def volNames (pod : UserPod) : List String := pod.Volumes.map (fun v => v.Name)

/-- "A leading zero followed by exactly three octal digits": the pattern in
the spec's words, matching the WHOLE permission string. Written from the
spec to compare against the source's unanchored regex match. -/
def specPermString (s : String) : Bool :=
  match s.data with
  | '0' :: a :: b :: c :: [] => isOctalDigit a && isOctalDigit b && isOctalDigit c
  | _ => false

/-- The combined permission acceptance applied by `Validate` to a file
mount's `perm` field: empty defaults to `"0755"`, the literal `"0"` is a
no-op sentinel, anything else must contain a match of `0[0-7]{3}`. -/
def permAccepted (perm : String) : Bool :=
  let p := if perm = "" then "0755" else perm
  p = "0" || containsPermPattern p.data

/-- All checks `Validate` performs, as one predicate: catalog names unique,
and per container unique mount keys and env names, resolving file and
volume references, acceptable permission strings. -/
def validateOk (pod : UserPod) : Prop :=
  (volNames pod).Nodup ∧ (fileNames pod).Nodup ∧
    ∀ c ∈ pod.Containers,
      (c.Volumes.map (fun v => v.Volume)).Nodup ∧
      (c.Envs.map (fun e => e.Env)).Nodup ∧
      (∀ f ∈ c.Files, f.Filename ∈ fileNames pod ∧ permAccepted f.Perm = true) ∧
      (∀ v ∈ c.Volumes, v.Volume ∈ volNames pod)

instance (pod : UserPod) : Decidable (validateOk pod) := by
  unfold validateOk; infer_instance

/-- Stepping lemma for `keySetAux`: a prefix of keyed elements whose keys
extend the accumulator without repetition is consumed whole. -/
theorem keySetAux_append (l₁ : List String) (rest : List GoElem) (acc : List String)
    (h : (acc ++ l₁).Nodup) :
    keySetAux (l₁.map GoElem.keyed ++ rest) acc = keySetAux rest (acc ++ l₁) := by
  induction l₁ generalizing acc with
  | nil => simp
  | cons k l ih =>
      have hk : k ∉ acc := by
        intro hmem
        rcases List.nodup_append.mp h with ⟨-, -, hdisj⟩
        exact hdisj hmem (by simp)
      have h' : ((acc ++ [k]) ++ l).Nodup := by
        simpa [List.append_assoc] using h
      simp only [List.map_cons, List.cons_append, keySetAux, if_neg hk]
      simpa [List.append_assoc] using ih (acc ++ [k]) h'

/-- A keyed slice with pairwise-distinct keys: `keySet` returns `true` with
the complete key set. -/
theorem keySet_nodup (l : List String) (h : l.Nodup) :
    keySet (GoVal.slice (l.map GoElem.keyed)) = (true, l) := by
  have := keySetAux_append l [] [] (by simpa using h)
  simpa [keySet, keySetAux] using this

/-- A keyed slice whose first repeated key follows the duplicate-free
prefix `l₁`: `keySet` returns `false` with exactly the keys of `l₁`. -/
theorem keySet_dup (l₁ : List String) (k : String) (l₂ : List String)
    (h₁ : l₁.Nodup) (hk : k ∈ l₁) :
    keySet (GoVal.slice ((l₁ ++ k :: l₂).map GoElem.keyed)) = (false, l₁) := by
  have := keySetAux_append l₁ ((k :: l₂).map GoElem.keyed) [] (by simpa using h₁)
  simp only [keySet, List.map_append] at *
  rw [this]
  simp [keySetAux, hk]

/-- A slice whose keyed prefix `l₁` is followed by a non-`item` element:
`keySet` returns `false` with the keys collected so far. -/
theorem keySet_nonItem (l₁ : List String) (l₂ : List GoElem) (h₁ : l₁.Nodup) :
    keySet (GoVal.slice (l₁.map GoElem.keyed ++ GoElem.nonItem :: l₂)) = (false, l₁) := by
  have := keySetAux_append l₁ (GoElem.nonItem :: l₂) [] (by simpa using h₁)
  simp only [keySet] at *
  rw [this]
  simp [keySetAux]

/-- The boolean returned by `keySet` on a keyed slice is exactly key
distinctness. -/
theorem keySetAux_fst_iff (l : List String) (acc : List String) (hacc : acc.Nodup) :
    (keySetAux (l.map GoElem.keyed) acc).1 = true ↔ (acc ++ l).Nodup := by
  induction l generalizing acc with
  | nil => simpa [keySetAux] using hacc
  | cons k rest ih =>
      by_cases hk : k ∈ acc
      · simp only [List.map_cons, keySetAux, if_pos hk]
        constructor
        · intro h; cases h
        · intro h
          rcases List.nodup_append.mp h with ⟨-, -, hdisj⟩
          exact absurd (hdisj hk (by simp)) (by simp)
      · have hacc' : (acc ++ [k]).Nodup := by
          simp [List.nodup_append, hacc, List.disjoint_singleton, hk]
        simp only [List.map_cons, keySetAux, if_neg hk]
        rw [ih (acc ++ [k]) hacc']
        constructor
        · intro h; simpa [List.append_assoc] using h
        · intro h; simpa [List.append_assoc] using h

/-- `keySet` on a keyed slice reports `true` exactly when the keys are
pairwise distinct. -/
theorem keySet_fst_iff (l : List String) :
    (keySet (GoVal.slice (l.map GoElem.keyed))).1 = true ↔ l.Nodup := by
  have := keySetAux_fst_iff l [] List.nodup_nil
  simpa [keySet] using this

/-- A `keySet` run over keyed elements that reports `false` found a
repeated key, so the reported set is non-empty. -/
theorem keySetAux_false_ne_nil (l : List String) (acc : List String)
    (h : (keySetAux (l.map GoElem.keyed) acc).1 = false) :
    (keySetAux (l.map GoElem.keyed) acc).2 ≠ [] := by
  induction l generalizing acc with
  | nil => simp [keySetAux] at h
  | cons k rest ih =>
      by_cases hk : k ∈ acc
      · simp only [List.map_cons, keySetAux, if_pos hk]
        intro hnil
        simp only [hnil] at hk
        exact absurd hk (List.not_mem_nil k)
      · simp only [List.map_cons, keySetAux, if_neg hk] at h ⊢
        exact ih (acc ++ [k]) h

/-- `volumesGoVal` in key-list form. -/
theorem volumesGoVal_eq (l : List UserVolume) :
    volumesGoVal l = GoVal.slice ((l.map (fun v => v.Name)).map GoElem.keyed) := by
  rw [volumesGoVal, List.map_map]; rfl

/-- `filesGoVal` in key-list form. -/
theorem filesGoVal_eq (l : List UserFile) :
    filesGoVal l = GoVal.slice ((l.map (fun f => f.Name)).map GoElem.keyed) := by
  rw [filesGoVal, List.map_map]; rfl

/-- `volumeRefsGoVal` in key-list form. -/
theorem volumeRefsGoVal_eq (l : List UserVolumeReference) :
    volumeRefsGoVal l = GoVal.slice ((l.map (fun v => v.Volume)).map GoElem.keyed) := by
  rw [volumeRefsGoVal, List.map_map]; rfl

/-- `envsGoVal` in key-list form. -/
theorem envsGoVal_eq (l : List UserEnvironmentVar) :
    envsGoVal l = GoVal.slice ((l.map (fun e => e.Env)).map GoElem.keyed) := by
  rw [envsGoVal, List.map_map]; rfl

/-- The permission field of the loop-local defaulted copy. -/
theorem defaultedPerm (f : UserFileReference) :
    (if f.Perm = "" then { f with Perm := "0755" } else f).Perm =
      (if f.Perm = "" then "0755" else f.Perm) := by
  by_cases h : f.Perm = "" <;> simp [h]

/-- The permission test performed by the file-mount loop, in terms of
`permAccepted`. -/
theorem perm_check_iff (f : UserFileReference) :
    (¬((if f.Perm = "" then { f with Perm := "0755" } else f).Perm ≠ "0" ∧
        containsPermPattern
          (if f.Perm = "" then { f with Perm := "0755" } else f).Perm.data = false)) ↔
      permAccepted f.Perm = true := by
  rw [defaultedPerm, permAccepted]
  by_cases h0 : (if f.Perm = "" then "0755" else f.Perm) = "0"
  · simp [h0]
  · cases hc : containsPermPattern (if f.Perm = "" then "0755" else f.Perm).data <;>
      simp [h0, hc]

/-- The file-mount loop succeeds exactly when every file mount resolves
into `fset` and carries an acceptable permission string. -/
theorem checkContainerFiles_none_iff (fset : List String) (idx : Nat)
    (fs : List UserFileReference) :
    checkContainerFiles fset idx fs = none ↔
      ∀ f ∈ fs, f.Filename ∈ fset ∧ permAccepted f.Perm = true := by
  induction fs with
  | nil => simp [checkContainerFiles]
  | cons f rest ih =>
      by_cases hmem : f.Filename ∈ fset
      · by_cases hperm : permAccepted f.Perm = true
        · have hcond := (perm_check_iff f).mpr hperm
          simp only [checkContainerFiles, if_pos hmem, if_neg hcond]
          simp [ih, hmem, hperm]
        · have hcond : ((if f.Perm = "" then { f with Perm := "0755" } else f).Perm ≠ "0" ∧
              containsPermPattern
                (if f.Perm = "" then { f with Perm := "0755" } else f).Perm.data = false) := by
            by_contra hc
            exact hperm ((perm_check_iff f).mp hc)
          simp only [checkContainerFiles, if_pos hmem, if_pos hcond]
          simp [hperm]
      · simp only [checkContainerFiles, if_neg hmem]
        simp [hmem]

/-- The volume-mount loop succeeds exactly when every volume mount
resolves into `vset`. -/
theorem checkContainerVolumes_none_iff (vset : List String) (idx : Nat)
    (vs : List UserVolumeReference) :
    checkContainerVolumes vset idx vs = none ↔ ∀ v ∈ vs, v.Volume ∈ vset := by
  induction vs with
  | nil => simp [checkContainerVolumes]
  | cons v rest ih =>
      by_cases h : v.Volume ∈ vset <;> simp [checkContainerVolumes, h, ih]

/-- The container loop succeeds exactly when every container passes all
four per-container checks. -/
theorem checkContainers_none_iff (vset fset : List String) (idx : Nat)
    (l : List UserContainer) :
    checkContainers vset fset idx l = none ↔
      ∀ c ∈ l,
        (c.Volumes.map (fun v => v.Volume)).Nodup ∧
        (c.Envs.map (fun e => e.Env)).Nodup ∧
        (∀ f ∈ c.Files, f.Filename ∈ fset ∧ permAccepted f.Perm = true) ∧
        (∀ v ∈ c.Volumes, v.Volume ∈ vset) := by
  induction l generalizing idx with
  | nil => simp [checkContainers]
  | cons c rest ih =>
      have hv : (keySet (volumeRefsGoVal c.Volumes)).1 = true ↔
          (c.Volumes.map (fun v => v.Volume)).Nodup := by
        rw [volumeRefsGoVal_eq]; exact keySet_fst_iff _
      have he : (keySet (envsGoVal c.Envs)).1 = true ↔
          (c.Envs.map (fun e => e.Env)).Nodup := by
        rw [envsGoVal_eq]; exact keySet_fst_iff _
      by_cases hvn : (c.Volumes.map (fun v => v.Volume)).Nodup
      · have hv1 : ¬((keySet (volumeRefsGoVal c.Volumes)).1 = false) := by
          rw [Bool.eq_false_iff, ne_eq, hv]; exact not_not_intro hvn
        by_cases hen : (c.Envs.map (fun e => e.Env)).Nodup
        · have he1 : ¬((keySet (envsGoVal c.Envs)).1 = false) := by
            rw [Bool.eq_false_iff, ne_eq, he]; exact not_not_intro hen
          simp only [checkContainers, if_neg hv1, if_neg he1]
          cases hcf : checkContainerFiles fset idx c.Files with
          | some e =>
              have : ¬(checkContainerFiles fset idx c.Files = none) := by simp [hcf]
              rw [checkContainerFiles_none_iff] at this
              push_neg at this
              rcases this with ⟨f, hf, hbad⟩
              simp only [List.forall_mem_cons]
              constructor
              · intro h; cases h
              · rintro ⟨⟨-, -, hfiles, -⟩, -⟩
                rcases hfiles f hf with ⟨h1, h2⟩
                exact absurd h2 (hbad h1)
          | none =>
              have hfiles := (checkContainerFiles_none_iff fset idx c.Files).mp hcf
              cases hcv : checkContainerVolumes vset idx c.Volumes with
              | some e =>
                  have : ¬(checkContainerVolumes vset idx c.Volumes = none) := by simp [hcv]
                  rw [checkContainerVolumes_none_iff] at this
                  push_neg at this
                  rcases this with ⟨v, hvmem, hbad⟩
                  simp only [List.forall_mem_cons]
                  constructor
                  · intro h; cases h
                  · rintro ⟨⟨-, -, -, hvols⟩, -⟩
                    exact absurd (hvols v hvmem) hbad
              | none =>
                  rw [ih (idx + 1)]
                  have hvols := (checkContainerVolumes_none_iff vset idx c.Volumes).mp hcv
                  simp only [List.forall_mem_cons]
                  constructor
                  · intro h; exact ⟨⟨hvn, hen, hfiles, hvols⟩, h⟩
                  · rintro ⟨-, h⟩; exact h
        · have he1 : (keySet (envsGoVal c.Envs)).1 = false := by
            rw [Bool.eq_false_iff, ne_eq, he]; exact hen
          simp only [checkContainers, if_neg hv1, if_pos he1]
          simp [List.forall_mem_cons, hen]
      · have hv1 : (keySet (volumeRefsGoVal c.Volumes)).1 = false := by
          rw [Bool.eq_false_iff, ne_eq, hv]; exact hvn
        simp only [checkContainers, if_pos hv1]
        simp [List.forall_mem_cons, hvn]

/-- Success characterization of `Validate`: the validator returns no error
exactly when all its checks hold of the record. -/
theorem Validate_none_iff (pod : UserPod) :
    (Validate pod).2 = none ↔ validateOk pod := by
  have hveq := volumesGoVal_eq pod.Volumes
  have hfeq := filesGoVal_eq pod.Files
  by_cases hv : (volNames pod).Nodup
  · have hvks : keySet (volumesGoVal pod.Volumes) = (true, volNames pod) := by
      rw [hveq]; exact keySet_nodup _ hv
    by_cases hf : (fileNames pod).Nodup
    · have hfks : keySet (filesGoVal pod.Files) = (true, fileNames pod) := by
        rw [hfeq]; exact keySet_nodup _ hf
      rw [Validate, validateOk]
      rw [hvks, hfks]
      simp only [Prod.fst, Prod.snd]
      norm_num
      rw [checkContainers_none_iff]
      simp [hv, hf]
    · have hf1 : (keySet (filesGoVal pod.Files)).1 = false := by
        rw [hfeq, Bool.eq_false_iff, ne_eq, keySet_fst_iff]; exact hf
      have hf2 : (keySet (filesGoVal pod.Files)).2 ≠ [] := by
        rw [hfeq] at hf1 ⊢
        exact keySetAux_false_ne_nil _ _ hf1
      rw [Validate, validateOk]
      rw [hvks]
      simp only [Prod.fst, Prod.snd]
      norm_num
      simp [hf1, List.length_pos.mpr hf2, hf]
  · have hv1 : (keySet (volumesGoVal pod.Volumes)).1 = false := by
      rw [hveq, Bool.eq_false_iff, ne_eq, keySet_fst_iff]; exact hv
    have hv2 : (keySet (volumesGoVal pod.Volumes)).2 ≠ [] := by
      rw [hveq] at hv1 ⊢
      exact keySetAux_false_ne_nil _ _ hv1
    rw [Validate, validateOk]
    simp [hv1, List.length_pos.mpr hv2, hv]

/-- Shape and soundness of errors from the file-mount loop: an error is a
dangling-file error correctly naming the container index and a file mount
whose filename misses `fset`, or the permission error (which carries no
data at all). -/
theorem checkContainerFiles_some (fset : List String) (idx : Nat)
    (fs : List UserFileReference) (e : VErr)
    (h : checkContainerFiles fset idx fs = some e) :
    (∃ n, e = VErr.danglingFile idx n ∧ n ∉ fset ∧ ∃ f ∈ fs, f.Filename = n) ∨
      e = VErr.badPerm := by
  induction fs with
  | nil => simp [checkContainerFiles] at h
  | cons f rest ih =>
      by_cases hmem : f.Filename ∈ fset
      · by_cases hperm : permAccepted f.Perm = true
        · have hcond := (perm_check_iff f).mpr hperm
          simp only [checkContainerFiles, if_pos hmem, if_neg hcond] at h
          rcases ih h with ⟨n, hn, hns, f', hf', hfn⟩ | hbp
          · exact Or.inl ⟨n, hn, hns, f', List.mem_cons_of_mem _ hf', hfn⟩
          · exact Or.inr hbp
        · have hcond : ((if f.Perm = "" then { f with Perm := "0755" } else f).Perm ≠ "0" ∧
              containsPermPattern
                (if f.Perm = "" then { f with Perm := "0755" } else f).Perm.data = false) := by
            by_contra hc
            exact hperm ((perm_check_iff f).mp hc)
          simp only [checkContainerFiles, if_pos hmem, if_pos hcond, Option.some.injEq] at h
          exact Or.inr h.symm
      · simp only [checkContainerFiles, if_neg hmem, Option.some.injEq] at h
        exact Or.inl ⟨f.Filename, h.symm, hmem, f, List.mem_cons_self f rest, rfl⟩

/-- Shape and soundness of errors from the volume-mount loop: the only
error is a dangling-volume error correctly naming the container index and
a volume mount whose reference misses `vset`. -/
theorem checkContainerVolumes_some (vset : List String) (idx : Nat)
    (vs : List UserVolumeReference) (e : VErr)
    (h : checkContainerVolumes vset idx vs = some e) :
    ∃ n, e = VErr.danglingVolume idx n ∧ n ∉ vset ∧ ∃ v ∈ vs, v.Volume = n := by
  induction vs with
  | nil => simp [checkContainerVolumes] at h
  | cons v rest ih =>
      by_cases hmem : v.Volume ∈ vset
      · simp only [checkContainerVolumes, if_pos hmem] at h
        rcases ih h with ⟨n, hn, hns, v', hv', hvn⟩
        exact ⟨n, hn, hns, v', List.mem_cons_of_mem _ hv', hvn⟩
      · simp only [checkContainerVolumes, if_neg hmem, Option.some.injEq] at h
        exact ⟨v.Volume, h.symm, hmem, v, List.mem_cons_self v rest, rfl⟩

/-- When a catalog's duplicate check does not trigger, the set handed to
the container loop is the complete key list of the catalog. -/
theorem keySet_snd_of_pass (l : List String)
    (h : ¬((keySet (GoVal.slice (l.map GoElem.keyed))).1 = false ∧
      0 < (keySet (GoVal.slice (l.map GoElem.keyed))).2.length)) :
    (keySet (GoVal.slice (l.map GoElem.keyed))).2 = l := by
  by_cases hb : (keySet (GoVal.slice (l.map GoElem.keyed))).1 = true
  · have hnd := (keySet_fst_iff l).mp hb
    rw [keySet_nodup l hnd]
  · have hf : (keySet (GoVal.slice (l.map GoElem.keyed))).1 = false := by
      rwa [Bool.not_eq_true] at hb
    have hne := keySetAux_false_ne_nil l [] hf
    exact absurd ⟨hf, List.length_pos.mpr hne⟩ h

/-- Soundness of a dangling-file error from the container loop: it names a
container position (relative to the starting index) one of whose file
mounts references exactly the reported missing name. -/
theorem checkContainers_danglingFile (vset fset : List String) (l : List UserContainer)
    (idx i : Nat) (n : String)
    (h : checkContainers vset fset idx l = some (VErr.danglingFile i n)) :
    ∃ c, l.get? (i - idx) = some c ∧ idx ≤ i ∧ n ∉ fset ∧ ∃ f ∈ c.Files, f.Filename = n := by
  induction l generalizing idx with
  | nil => simp [checkContainers] at h
  | cons c rest ih =>
      simp only [checkContainers] at h
      split at h
      · simp at h
      · split at h
        · simp at h
        · cases hcf : checkContainerFiles fset idx c.Files with
          | some e =>
              rw [hcf] at h
              simp only [Option.some.injEq] at h
              subst h
              rcases checkContainerFiles_some fset idx c.Files _ hcf with
                ⟨m, hm, hms, f', hf', hfn⟩ | hbp
              · have hi : i = idx ∧ n = m := by
                  rw [VErr.danglingFile.injEq] at hm
                  exact ⟨hm.1, hm.2⟩
                rcases hi with ⟨hi1, hi2⟩
                subst hi1; subst hi2
                exact ⟨c, by simp, Nat.le_refl _, hms, f', hf', hfn⟩
              · cases hbp
          | none =>
              rw [hcf] at h
              cases hcv : checkContainerVolumes vset idx c.Volumes with
              | some e =>
                  rw [hcv] at h
                  simp only [Option.some.injEq] at h
                  subst h
                  rcases checkContainerVolumes_some vset idx c.Volumes _ hcv with ⟨m, hm, -⟩
                  cases hm
              | none =>
                  rw [hcv] at h
                  rcases ih (idx + 1) h with ⟨c', hget, hle, hns, f', hf', hfn⟩
                  refine ⟨c', ?_, Nat.le_of_succ_le hle, hns, f', hf', hfn⟩
                  have : i - idx = (i - (idx + 1)) + 1 := by omega
                  rw [this]
                  simpa using hget

/-- Soundness of a dangling-volume error from the container loop. -/
theorem checkContainers_danglingVolume (vset fset : List String) (l : List UserContainer)
    (idx i : Nat) (n : String)
    (h : checkContainers vset fset idx l = some (VErr.danglingVolume i n)) :
    ∃ c, l.get? (i - idx) = some c ∧ idx ≤ i ∧ n ∉ vset ∧ ∃ v ∈ c.Volumes, v.Volume = n := by
  induction l generalizing idx with
  | nil => simp [checkContainers] at h
  | cons c rest ih =>
      simp only [checkContainers] at h
      split at h
      · simp at h
      · split at h
        · simp at h
        · cases hcf : checkContainerFiles fset idx c.Files with
          | some e =>
              rw [hcf] at h
              simp only [Option.some.injEq] at h
              subst h
              rcases checkContainerFiles_some fset idx c.Files _ hcf with ⟨m, hm, -⟩ | hbp
              · cases hm
              · cases hbp
          | none =>
              rw [hcf] at h
              cases hcv : checkContainerVolumes vset idx c.Volumes with
              | some e =>
                  rw [hcv] at h
                  simp only [Option.some.injEq] at h
                  subst h
                  rcases checkContainerVolumes_some vset idx c.Volumes _ hcv with
                    ⟨m, hm, hms, v', hv', hvn⟩
                  have hi : i = idx ∧ n = m := by
                    rw [VErr.danglingVolume.injEq] at hm
                    exact ⟨hm.1, hm.2⟩
                  rcases hi with ⟨hi1, hi2⟩
                  subst hi1; subst hi2
                  exact ⟨c, by simp, Nat.le_refl _, hms, v', hv', hvn⟩
              | none =>
                  rw [hcv] at h
                  rcases ih (idx + 1) h with ⟨c', hget, hle, hns, v', hv', hvn⟩
                  refine ⟨c', ?_, Nat.le_of_succ_le hle, hns, v', hv', hvn⟩
                  have : i - idx = (i - (idx + 1)) + 1 := by omega
                  rw [this]
                  simpa using hget

/-- Soundness of a dangling-file error from `Validate`: the reported index
locates a container one of whose file mounts references exactly the
reported name, and that name is absent from the top-level file catalog. -/
theorem Validate_danglingFile (pod : UserPod) (i : Nat) (n : String)
    (h : (Validate pod).2 = some (VErr.danglingFile i n)) :
    ∃ c, pod.Containers.get? i = some c ∧ n ∉ fileNames pod ∧
      ∃ f ∈ c.Files, f.Filename = n := by
  rw [Validate] at h
  split at h
  · simp at h
  · split at h
    · simp at h
    · rename_i hnv hnf
      simp only [Prod.snd] at h
      have hfset : (keySet (filesGoVal pod.Files)).2 = fileNames pod := by
        have := keySet_snd_of_pass (pod.Files.map (fun f => f.Name))
        rw [← filesGoVal_eq] at this
        exact this hnf
      rw [hfset] at h
      rcases checkContainers_danglingFile _ _ _ 0 i n h with ⟨c, hget, -, hns, f', hf', hfn⟩
      exact ⟨c, by simpa using hget, hns, f', hf', hfn⟩

/-- Soundness of a dangling-volume error from `Validate`. -/
theorem Validate_danglingVolume (pod : UserPod) (i : Nat) (n : String)
    (h : (Validate pod).2 = some (VErr.danglingVolume i n)) :
    ∃ c, pod.Containers.get? i = some c ∧ n ∉ volNames pod ∧
      ∃ v ∈ c.Volumes, v.Volume = n := by
  rw [Validate] at h
  split at h
  · simp at h
  · split at h
    · simp at h
    · rename_i hnv hnf
      simp only [Prod.snd] at h
      have hvset : (keySet (volumesGoVal pod.Volumes)).2 = volNames pod := by
        have := keySet_snd_of_pass (pod.Volumes.map (fun v => v.Name))
        rw [← volumesGoVal_eq] at this
        exact this hnv
      rw [hvset] at h
      rcases checkContainers_danglingVolume _ _ _ 0 i n h with ⟨c, hget, -, hns, v', hv', hvn⟩
      exact ⟨c, by simpa using hget, hns, v', hv', hvn⟩

/-- The image loop errors exactly when some container has an empty image. -/
theorem hasEmptyImage_iff (l : List UserContainer) :
    hasEmptyImage l = true ↔ ∃ c ∈ l, c.Image = "" := by
  induction l with
  | nil => simp [hasEmptyImage]
  | cons c rest ih => simp [hasEmptyImage, ih]

/-- The volume-name loop errors exactly when some top-level volume has an
empty name. -/
theorem hasEmptyVolumeName_iff (l : List UserVolume) :
    hasEmptyVolumeName l = true ↔ ∃ v ∈ l, v.Name = "" := by
  induction l with
  | nil => simp [hasEmptyVolumeName]
  | cons v rest ih => simp [hasEmptyVolumeName, ih]

/-- The alphanumeric dictionary. -/
theorem randDictionary_alphanum :
    randDictionary "alphanum" = "0123456789abcdefghijklmnopqrstuvwxyz" := rfl

/-- Any modulo-36 index lands on a character of the alphanumeric
dictionary. -/
theorem alphanum_getD_mem (n : Nat) :
    "0123456789abcdefghijklmnopqrstuvwxyz".data.getD
        (n % "0123456789abcdefghijklmnopqrstuvwxyz".data.length) ' ' ∈
      "0123456789abcdefghijklmnopqrstuvwxyz".data := by
  have hlen : "0123456789abcdefghijklmnopqrstuvwxyz".data.length = 36 := rfl
  have hlt : n % "0123456789abcdefghijklmnopqrstuvwxyz".data.length <
      "0123456789abcdefghijklmnopqrstuvwxyz".data.length := by
    rw [hlen]; exact Nat.mod_lt _ (by norm_num)
  rw [List.getD_eq_getElem _ _ hlt]
  exact List.getElem_mem hlt

/-- `RandStr` over the alphanumeric class produces `strSize` characters. -/
theorem randStr_alphanum_length (r : Nat → Nat) (n : Nat) :
    (RandStr r n "alphanum").length = n := by
  have hmk : ∀ l : List Char, (String.mk l).length = l.length := fun _ => rfl
  rw [RandStr, hmk]
  simp

/-- Every character of an alphanumeric `RandStr` output is drawn from the
36-symbol dictionary. -/
theorem randStr_alphanum_mem (r : Nat → Nat) (n : Nat) :
    ∀ c ∈ (RandStr r n "alphanum").data, c ∈ "0123456789abcdefghijklmnopqrstuvwxyz".data := by
  intro c hc
  rw [RandStr] at hc
  simp only [randDictionary_alphanum, String.data] at hc
  rcases List.mem_map.mp hc with ⟨v, -, rfl⟩
  exact alphanum_getD_mem _

/-- A container with only an image set (every other field absent in the
document decodes to its zero value). -/
def mkContainer (image : String) : UserContainer :=
  { Name := "", Image := image, Command := [], Workdir := "", Entrypoint := [],
    Ports := [], Envs := [], Volumes := [], Files := [], RestartPolicy := "" }

/-- The decoded form of the document `{"containers":[{"image":"busybox"}]}`. -/
def minimalPod : UserPod :=
  { Name := "", Containers := [mkContainer "busybox"], Resource := ⟨0, 0⟩,
    Files := [], Volumes := [], Tty := false, Type' := "" }

/-- The record `ProcessPodBytes` returns for `minimalPod` under random
source `r`. -/
def minimalPodOut (r : Nat → Nat) : UserPod :=
  { minimalPod with Name := RandStr r 10 "alphanum", Resource := ⟨1, 128⟩ }

/-- A pod whose single container mounts catalog file `"f"` with the given
permission string: it passes every validation step up to the permission
check of that mount. -/
def mkPermPod (perm : String) : UserPod :=
  { Name := "p",
    Containers := [{ mkContainer "img" with
      Files := [{ Path := "/x", Filename := "f", Perm := perm, User := "", Group := "" }] }],
    Resource := ⟨1, 128⟩,
    Files := [{ Name := "f", Encoding := "", Uri := "", Contents := "" }],
    Volumes := [], Tty := false, Type' := "" }

/-!
## Claims
-/

/-- C4: `Validate` leaves the pod record completely unchanged whether it
returns success or an error; in particular the `"0755"` permission default
applied during validation touches only the loop-local copy of the file
mount and is not observable in the record after `Validate` returns. -/
theorem C4_validate_no_mutation (pod : UserPod) : (Validate pod).1 = pod := by
  rw [Validate]
  split
  · rfl
  · split
    · rfl
    · rfl

/-- C8: every output of `RandStr` with size 10 and the alphanumeric class
tag is a string of exactly 10 characters, each drawn from the 36-symbol
alphabet `[0-9a-z]`. -/
theorem C8_randstr_alphanum (r : Nat → Nat) :
    (RandStr r 10 "alphanum").length = 10 ∧
      ∀ c ∈ (RandStr r 10 "alphanum").data,
        c ∈ "0123456789abcdefghijklmnopqrstuvwxyz".data :=
  ⟨randStr_alphanum_length r 10, randStr_alphanum_mem r 10⟩

/-- Witness for C8 at the constant-zero random source, whose output is
`"0000000000"`. -/
theorem C8_randstr_alphanum_witness :
    ('0' : Char) ∈ "0123456789abcdefghijklmnopqrstuvwxyz".data :=
  (C8_randstr_alphanum (fun _ => 0)).2 '0' (by decide)

/-- C2: for every decoded document, an empty container list always yields
the zero-containers error, regardless of every other field; and any
container with an empty image always yields the missing-image error (the
loop stops at the first such container), even if other containers are
well-formed. -/
theorem C2_decode_structural_errors (pod : UserPod) (r : Nat → Nat) :
    (pod.Containers = [] → ProcessPodBytes r pod = Except.error PodErr.noContainers) ∧
      ((∃ c ∈ pod.Containers, c.Image = "") →
        ProcessPodBytes r pod = Except.error PodErr.missingImage) := by
  constructor
  · intro h
    rw [ProcessPodBytes, h]
    simp [hasEmptyImage]
  · intro hex
    have himg : hasEmptyImage pod.Containers = true := (hasEmptyImage_iff _).mpr hex
    rw [ProcessPodBytes]
    simp [himg]

/-- A decoded document with zero containers but every other field set,
including an ill-formed volume entry. -/
def emptyContainersPod : UserPod :=
  { Name := "x", Containers := [], Resource := ⟨2, 64⟩,
    Files := [{ Name := "f", Encoding := "", Uri := "", Contents := "" }],
    Volumes := [{ Name := "", Source := "s", Driver := "d" }],
    Tty := true, Type' := "kubernetes" }

/-- A decoded document whose second container lacks an image while the
first is well-formed. -/
def missingImagePod : UserPod :=
  { Name := "x", Containers := [mkContainer "busybox", mkContainer ""],
    Resource := ⟨1, 128⟩, Files := [], Volumes := [], Tty := false, Type' := "" }

/-- Witness for C2 on two concrete documents. -/
theorem C2_decode_structural_errors_witness :
    ProcessPodBytes (fun _ => 0) emptyContainersPod = Except.error PodErr.noContainers ∧
      ProcessPodBytes (fun _ => 0) missingImagePod = Except.error PodErr.missingImage :=
  ⟨(C2_decode_structural_errors emptyContainersPod (fun _ => 0)).1 (by decide),
   (C2_decode_structural_errors missingImagePod (fun _ => 0)).2
     ⟨mkContainer "", by decide, by decide⟩⟩

/-- C10: a decoded document that clears the container checks (at least one
container, all images non-empty) still fails in `ProcessPodBytes` — before
`Validate` ever runs — when any top-level volume entry has an empty
name. -/
theorem C10_decode_empty_volume_name (pod : UserPod) (r : Nat → Nat)
    (h1 : pod.Containers ≠ [])
    (h2 : ∀ c ∈ pod.Containers, c.Image ≠ "")
    (h3 : ∃ v ∈ pod.Volumes, v.Name = "") :
    ProcessPodBytes r pod = Except.error PodErr.emptyVolumeName := by
  have himg : ¬(hasEmptyImage pod.Containers = true) := by
    rw [hasEmptyImage_iff]
    rintro ⟨c, hc, him⟩
    exact h2 c hc him
  have hlen : ¬(pod.Containers.length = 0) := by
    rw [List.length_eq_zero]
    exact h1
  have hvol : hasEmptyVolumeName pod.Volumes = true := (hasEmptyVolumeName_iff _).mpr h3
  rw [ProcessPodBytes]
  simp [himg, hlen, hvol]

/-- A decoded document with a well-formed container and a nameless
top-level volume. -/
def namelessVolumePod : UserPod :=
  { Name := "x", Containers := [mkContainer "busybox"], Resource := ⟨1, 128⟩,
    Files := [], Volumes := [{ Name := "", Source := "s", Driver := "d" }],
    Tty := false, Type' := "" }

/-- Witness for C10 on a concrete document. -/
theorem C10_decode_empty_volume_name_witness :
    ProcessPodBytes (fun _ => 0) namelessVolumePod = Except.error PodErr.emptyVolumeName :=
  C10_decode_empty_volume_name namelessVolumePod (fun _ => 0) (by decide)
    (by decide) ⟨{ Name := "", Source := "s", Driver := "d" }, by decide, rfl⟩

/-- Evaluation of the pipeline on the minimal document. -/
theorem processPodBytes_minimal (r : Nat → Nat) :
    ProcessPodBytes r minimalPod = Except.ok (minimalPodOut r) := by
  rw [ProcessPodBytes]
  simp [minimalPod, minimalPodOut, mkContainer, hasEmptyImage, hasEmptyVolumeName]

/-- C6: on the decoded form of `{"containers":[{"image":"busybox"}]}`,
decode+default succeeds with `vcpu = 1`, `memory = 128` and a freshly
generated non-empty 10-character alphanumeric name, and `Validate`
succeeds on the returned record. -/
theorem C6_minimal_document (r : Nat → Nat) :
    ProcessPodBytes r minimalPod = Except.ok (minimalPodOut r) ∧
      (minimalPodOut r).Resource.Vcpu = 1 ∧
      (minimalPodOut r).Resource.Memory = 128 ∧
      (minimalPodOut r).Name = RandStr r 10 "alphanum" ∧
      (minimalPodOut r).Name.length = 10 ∧
      (minimalPodOut r).Name ≠ "" ∧
      (∀ ch ∈ (minimalPodOut r).Name.data,
        ch ∈ "0123456789abcdefghijklmnopqrstuvwxyz".data) ∧
      (Validate (minimalPodOut r)).2 = none := by
  refine ⟨processPodBytes_minimal r, rfl, rfl, rfl, ?_, ?_, ?_, ?_⟩
  · exact randStr_alphanum_length r 10
  · intro h
    have h10 := randStr_alphanum_length r 10
    have : (minimalPodOut r).Name.length = 10 := h10
    rw [h] at this
    simp at this
  · exact randStr_alphanum_mem r 10
  · rw [Validate]
    simp [minimalPodOut, minimalPod, mkContainer, volumesGoVal, filesGoVal,
      volumeRefsGoVal, envsGoVal, keySet, keySetAux, checkContainers,
      checkContainerFiles, checkContainerVolumes]

/-- Witness for C6 at the constant-zero random source. -/
theorem C6_minimal_document_witness :
    ProcessPodBytes (fun _ => 0) minimalPod = Except.ok (minimalPodOut (fun _ => 0)) ∧
      ('0' : Char) ∈ "0123456789abcdefghijklmnopqrstuvwxyz".data :=
  ⟨(C6_minimal_document (fun _ => 0)).1,
   (C6_minimal_document (fun _ => 0)).2.2.2.2.2.2.1 '0' (by decide)⟩

/-- `ProcessPodBytes` with the pod name erased from the result: everything
the pipeline produces apart from the generated identifier. -/
def stripName (res : Except PodErr UserPod) : Except PodErr UserPod :=
  res.map (fun p => { p with Name := "" })

/-- C9 counterexample: two runs of decode+default on the same decoded
document under different states of the process-wide random source yield
different records (the generated names differ), so the pipeline is not
deterministic in its input alone. -/
theorem C9_counterexample :
    ProcessPodBytes (fun _ => 0) minimalPod ≠ ProcessPodBytes (fun _ => 1) minimalPod := by
  intro h
  have h0 := processPodBytes_minimal (fun _ => 0)
  have h1 := processPodBytes_minimal (fun _ => 1)
  rw [h0, h1, Except.ok.injEq] at h
  have hn := congrArg UserPod.Name h
  revert hn
  decide

/-- C9 amended: the pipeline is deterministic in its input except for the
random name generation — the outputs of two runs agree once the name is
erased, and agree outright whenever the document carries a non-empty
name (the random source is then never consulted). -/
theorem C9_amended_determinism (pod : UserPod) (r₁ r₂ : Nat → Nat) :
    stripName (ProcessPodBytes r₁ pod) = stripName (ProcessPodBytes r₂ pod) ∧
      (pod.Name ≠ "" → ProcessPodBytes r₁ pod = ProcessPodBytes r₂ pod) := by
  constructor
  · rw [ProcessPodBytes, ProcessPodBytes]
    by_cases hi : hasEmptyImage pod.Containers = true <;>
      by_cases hl : pod.Containers.length = 0 <;>
        by_cases hv : hasEmptyVolumeName pod.Volumes = true <;>
          simp [hi, hl, hv, stripName, Except.map]
  · intro h
    rw [ProcessPodBytes, ProcessPodBytes]
    simp [h]

/-- Witness for C9 amended: a named document processed under two different
random sources. -/
theorem C9_amended_determinism_witness :
    ProcessPodBytes (fun _ => 0) namelessVolumePod =
      ProcessPodBytes (fun _ => 1) namelessVolumePod :=
  (C9_amended_determinism namelessVolumePod (fun _ => 0) (fun _ => 1)).2 (by decide)

/-- C1 counterexample: the source regex `0[0-7]{3}` is matched UNANCHORED
(`regexp.Match` finds the pattern anywhere in the string), so the
permission string `"07555"` — which is not "a leading zero followed by
exactly three octal digits" — passes validation, refuting the claimed
"if and only if". -/
theorem C1_counterexample_unanchored :
    (Validate (mkPermPod "07555")).2 = none ∧ specPermString "07555" = false :=
  ⟨by decide, by decide⟩

/-- C1 amended: for a pod passing every earlier validation step whose file
mount carries a set, non-`"0"` permission string, validation succeeds on
that string iff the string CONTAINS a zero followed by three octal digits
at any position; the four quoted examples behave as the claim states. -/
theorem C1_amended_perm (perm : String) (h1 : perm ≠ "") (h2 : perm ≠ "0") :
    ((Validate (mkPermPod perm)).2 = none ↔ containsPermPattern perm.data = true) ∧
      (Validate (mkPermPod "0755")).2 = none ∧
      (Validate (mkPermPod "755")).2 = some VErr.badPerm ∧
      (Validate (mkPermPod "0")).2 = none ∧
      (Validate (mkPermPod "0999")).2 = some VErr.badPerm := by
  refine ⟨?_, by decide, by decide, by decide, by decide⟩
  rw [Validate_none_iff]
  simp [validateOk, mkPermPod, mkContainer, fileNames, volNames, permAccepted, h1, h2]

/-- Witness for C1 amended on the permission string `"0700"`. -/
theorem C1_amended_perm_witness :
    (Validate (mkPermPod "0700")).2 = none ↔ containsPermPattern "0700".data = true :=
  (C1_amended_perm "0700" (by decide) (by decide)).1

/-- A pod passing the catalog- and per-container-uniqueness checks whose
container has one file mount with a malformed permission (`"9"`) followed
by one dangling file mount (`"g"` missing from the catalog). -/
def danglingMaskedPod : UserPod :=
  { Name := "p",
    Containers := [{ mkContainer "img" with
      Files := [{ Path := "/a", Filename := "f", Perm := "9", User := "", Group := "" },
                { Path := "/b", Filename := "g", Perm := "0755", User := "", Group := "" }] }],
    Resource := ⟨1, 128⟩,
    Files := [{ Name := "f", Encoding := "", Uri := "", Contents := "" }],
    Volumes := [], Tty := false, Type' := "" }

/-- C3 counterexample: on a pod meeting the claim's hypotheses and holding
a dangling file reference (`"g"`), `Validate` fails with the malformed-
permission error of an EARLIER file mount, not with an error identifying
the missing name. -/
theorem C3_counterexample_masked :
    (Validate danglingMaskedPod).2 = some VErr.badPerm ∧
      (danglingMaskedPod.Containers.any (fun c =>
        c.Files.any (fun f => !(fileNames danglingMaskedPod).contains f.Filename))) = true ∧
      (volNames danglingMaskedPod).Nodup ∧ (fileNames danglingMaskedPod).Nodup ∧
      (danglingMaskedPod.Containers.all (fun c =>
        (c.Volumes.map (fun v => v.Volume)).Nodup ∧
          (c.Envs.map (fun e => e.Env)).Nodup)) = true ∧
      VErr.badPerm ≠ VErr.danglingFile 0 "g" :=
  ⟨by decide, by decide, by decide, by decide, by decide, by decide⟩

/-- C3 amended: under the claim's hypotheses, a dangling file or volume
reference guarantees `Validate` fails (though possibly with a different,
earlier error); whenever the returned error IS a dangling-reference error
it identifies the offending container's index and the missing name; and
when every reference resolves and all other checks pass, `Validate`
succeeds. -/
theorem C3_amended_dangling (pod : UserPod)
    (_hcat : (volNames pod).Nodup ∧ (fileNames pod).Nodup)
    (_hper : ∀ c ∈ pod.Containers,
      (c.Volumes.map (fun v => v.Volume)).Nodup ∧ (c.Envs.map (fun e => e.Env)).Nodup) :
    ((∃ c ∈ pod.Containers,
        (∃ f ∈ c.Files, f.Filename ∉ fileNames pod) ∨
        (∃ v ∈ c.Volumes, v.Volume ∉ volNames pod)) →
      (Validate pod).2 ≠ none) ∧
    (∀ i n, (Validate pod).2 = some (VErr.danglingFile i n) →
      ∃ c, pod.Containers.get? i = some c ∧ n ∉ fileNames pod ∧
        ∃ f ∈ c.Files, f.Filename = n) ∧
    (∀ i n, (Validate pod).2 = some (VErr.danglingVolume i n) →
      ∃ c, pod.Containers.get? i = some c ∧ n ∉ volNames pod ∧
        ∃ v ∈ c.Volumes, v.Volume = n) ∧
    (validateOk pod → (Validate pod).2 = none) := by
  refine ⟨?_, ?_, ?_, ?_⟩
  · rintro ⟨c, hc, hd⟩ hnone
    rw [Validate_none_iff] at hnone
    rcases hnone with ⟨-, -, hcon⟩
    rcases hcon c hc with ⟨-, -, hfiles, hvols⟩
    rcases hd with ⟨f, hf, hfn⟩ | ⟨v, hv, hvn⟩
    · exact hfn (hfiles f hf).1
    · exact hvn (hvols v hv)
  · intro i n h
    exact Validate_danglingFile pod i n h
  · intro i n h
    exact Validate_danglingVolume pod i n h
  · intro h
    exact (Validate_none_iff pod).mpr h

/-- A pod whose container mounts a volume name absent from the (empty)
top-level volume catalog. -/
def danglingVolRefPod : UserPod :=
  { Name := "p",
    Containers := [{ mkContainer "img" with
      Volumes := [{ Path := "/m", Volume := "vol1", ReadOnly := false }] }],
    Resource := ⟨1, 128⟩, Files := [], Volumes := [], Tty := false, Type' := "" }

/-- Witness for C3 amended on a concrete pod with a dangling volume
reference. -/
theorem C3_amended_dangling_witness : (Validate danglingVolRefPod).2 ≠ none :=
  (C3_amended_dangling danglingVolRefPod ⟨by decide, by decide⟩ (by decide)).1
    ⟨{ mkContainer "img" with
        Volumes := [{ Path := "/m", Volume := "vol1", ReadOnly := false }] },
      by decide,
      Or.inr ⟨{ Path := "/m", Volume := "vol1", ReadOnly := false }, by decide, by decide⟩⟩

/-- C5 (code bug): the malformed-permission error carries NEITHER the
container index NOR the offending permission value — the source's format
string has a `%d` verb for the index and a `%s` verb for the value but the
call passes no arguments at all, so the rendered message shows Go's
missing-argument markers in both places. At the failing input
`mkPermPod "zzz"` the error's message contains neither `"zzz"` nor `"0"`
(the rendering of the offending container's index); the dangling-file
message, by contrast, does carry index and name. -/
theorem C5_perm_value_missing_from_message :
    (Validate (mkPermPod "zzz")).2 = some VErr.badPerm ∧
      errMsg VErr.badPerm =
        "in container %!d(MISSING), the permission %!s(MISSING) only accept Octal digital in string" ∧
      ¬ List.IsInfix "zzz".data (errMsg VErr.badPerm).data ∧
      ¬ List.IsInfix "0".data (errMsg VErr.badPerm).data ∧
      errMsg (VErr.danglingFile 0 "g") =
        "in container 0, file g does not exist in file list." :=
  ⟨by decide, by decide,
    fun h => by
      have hz : 'z' ∈ (errMsg VErr.badPerm).data := h.subset (by decide)
      revert hz
      decide,
    fun h => by
      have h0 : '0' ∈ (errMsg VErr.badPerm).data := h.subset (by decide)
      revert h0
      decide,
    by decide⟩

/-- C7 counterexample: a slice that is not a recognizable keyed collection
(a keyed element followed by a non-`item` element) makes `keySet` report
`false` with a NON-empty set — the keys collected before the offending
element — not the claimed empty set. -/
theorem C7_counterexample_mixed :
    keySet (GoVal.slice [GoElem.keyed "a", GoElem.nonItem]) = (false, ["a"]) ∧
      (["a"] : List String) ≠ [] :=
  ⟨by decide, by decide⟩

/-- C7 amended: on a keyed slice with pairwise-distinct keys `keySet`
returns `true` with the complete key set; with a first repeated key after
the duplicate-free prefix `l₁` it returns `false` with exactly the keys of
`l₁`; on a non-slice it returns `false` with the empty set; and on a slice
whose keyed prefix `l₁` is followed by a non-`item` element it returns
`false` with the keys of `l₁` (empty only when the prefix is). -/
theorem C7_amended_keyset (l l₁ l₂ : List String) (k : String) (rest : List GoElem)
    (h : l.Nodup) (h₁ : l₁.Nodup) (hk : k ∈ l₁) :
    keySet (GoVal.slice (l.map GoElem.keyed)) = (true, l) ∧
      keySet (GoVal.slice ((l₁ ++ k :: l₂).map GoElem.keyed)) = (false, l₁) ∧
      keySet GoVal.nonSlice = (false, []) ∧
      keySet (GoVal.slice (l₁.map GoElem.keyed ++ GoElem.nonItem :: rest)) = (false, l₁) :=
  ⟨keySet_nodup l h, keySet_dup l₁ k l₂ h₁ hk, rfl, keySet_nonItem l₁ rest h₁⟩

/-- Witness for C7 amended on concrete collections. -/
theorem C7_amended_keyset_witness :
    keySet (GoVal.slice (["x", "y"].map GoElem.keyed)) = (true, ["x", "y"]) ∧
      keySet (GoVal.slice ((["a"] ++ "a" :: []).map GoElem.keyed)) = (false, ["a"]) ∧
      keySet GoVal.nonSlice = (false, []) ∧
      keySet (GoVal.slice (["a"].map GoElem.keyed ++ GoElem.nonItem :: [])) = (false, ["a"]) :=
  C7_amended_keyset ["x", "y"] ["a"] [] "a" [] (by decide) (by decide) (by decide)
